import Mathlib

/-!
Verification of the real-time chat hub (src/main.go) against its
natural-language specification.

The development shallowly embeds the program:
* the envelope codec (struct `Message`, lines 37-41, and what
  `encoding/json.Marshal` does with it, including Go's struct-tag parsing,
  since the `Sender` field's tag is malformed in the source);
* the hub (`ClientManager`, lines 18-23 and 51-96) as a state machine over
  `HubState`, with one processing function per `select` arm of
  `ClientManager.start` and a separate embedding of `ClientManager.send`;
* the per-connection pumps (`Client.read`, lines 98-114, and
  `Client.write`, lines 116-130) as trace-producing functions.

Channel sends are modelled with a readiness oracle `rdy : Nat -> Bool`:
all `send` channels in the program are unbuffered (`make(chan []byte)`,
line 145), so a non-blocking send to client `c` succeeds exactly when
`c`'s write pump is ready to receive at that instant (`rdy c.ptr = true`);
a blocking send to a non-ready client makes the sender wait.
-/

namespace RTChat

/-! ## Envelope codec (Message struct, lines 37-41, and encoding/json) -/

/-- The `Message` struct (lines 37-41). All three fields are Go strings. -/
structure Message where
  Sender : String
  Recipient : String
  Content : String
deriving DecidableEq, Repr

/-- A character Go's `reflect.StructTag.Lookup` accepts inside a tag key:
strictly above space, not a colon, not a quote, not DEL. -/
def isNameChar (c : Char) : Bool :=
  32 < c.toNat && c != ':' && c != '"' && c.toNat != 127

/-- Skip leading spaces, as the tag-scanning loop in
`reflect.StructTag.Lookup` does at the start of each iteration. -/
def dropSpaces : List Char → List Char
  | [] => []
  | c :: rest => if c = ' ' then dropSpaces rest else c :: rest

/-- Scan a double-quoted tag value (the cursor is just past the opening
quote): return the unescaped contents and the remainder after the closing
quote, or `none` if the quote is unterminated.  A backslash escapes the
next character; the tags of `Message` contain no escapes, so the simple
drop-the-backslash unescaping coincides with `strconv.Unquote` here. -/
def scanQuoted : List Char → Option (List Char × List Char)
  | [] => none
  | '"' :: rest => some ([], rest)
  | '\\' :: c :: rest =>
    match scanQuoted rest with
    | none => none
    | some (v, rem) => some (c :: v, rem)
  | c :: rest =>
    match scanQuoted rest with
    | none => none
    | some (v, rem) => some (c :: v, rem)

/-- One-to-one embedding of the loop body of `reflect.StructTag.Lookup`:
skip spaces, scan a key, then demand `:"` immediately after the key --
if anything deviates (in particular a space between the colon and the
opening quote) the whole lookup gives up and returns `none`.  `fuel`
bounds the iteration count; `tagLookup` passes enough for any input. -/
def tagLookupAux (key : List Char) : Nat → List Char → Option (List Char)
  | 0, _ => none
  | fuel + 1, tag =>
    match dropSpaces tag with
    | [] => none
    | t =>
      let name := t.takeWhile isNameChar
      match name, t.drop name.length with
      | [], _ => none
      | _, ':' :: '"' :: vrest =>
        match scanQuoted vrest with
        | none => none
        | some (v, rem) =>
          if name = key then some v else tagLookupAux key fuel rem
      | _, _ => none

/-- `reflect.StructTag.Lookup` (equivalently `Get`) on a whole tag. -/
def tagLookup (tag key : String) : Option String :=
  (tagLookupAux key.data (tag.data.length + 1) tag.data).map String.mk

/-- Split at every comma, as `encoding/json`'s `parseTag` plus
`tagOptions.Contains` jointly do: head is the name, tail the options. -/
def splitComma : List Char → List (List Char)
  | [] => [[]]
  | c :: rest =>
    if c = ',' then [] :: splitComma rest
    else
      match splitComma rest with
      | [] => [[c]]
      | g :: gs => (c :: g) :: gs

/-- Characters `encoding/json`'s `isValidTag` accepts: ASCII letters and
digits (the tags here are ASCII) plus its fixed punctuation set. -/
def isValidTagChar (c : Char) : Bool :=
  c.isAlpha || c.isDigit ||
    ['!', '#', '$', '%', '&', '(', ')', '*', '+', '-', '.', '/', ':', ';',
     '<', '=', '>', '?', '@', '[', ']', '^', '_', Char.ofNat 123, '|',
     Char.ofNat 125, '~', ' '].contains c

/-- `encoding/json.isValidTag`: nonempty and all characters admissible. -/
def isValidTag (s : String) : Bool :=
  !s.data.isEmpty && s.data.all isValidTagChar

/-- The JSON key and omitempty flag `encoding/json` derives for one
struct field. -/
structure FieldSpec where
  key : String
  omitEmpty : Bool
deriving DecidableEq, Repr

/-- How `encoding/json`'s `typeFields` treats one exported field of
`Message`: look up the `json` tag; on lookup failure, or an invalid name
part, fall back to the Go field name with no options. -/
def jsonFieldSpec (goName tag : String) : FieldSpec :=
  match tagLookup tag "json" with
  | none => ⟨goName, false⟩
  | some v =>
    match splitComma v.data with
    | [] => ⟨goName, false⟩
    | n :: opts =>
      let nm := String.mk n
      ⟨if isValidTag nm then nm else goName, opts.contains "omitempty".data⟩

/-- The `Sender` field's tag exactly as written on line 38 of the source:
there is a space between the colon and the opening quote. -/
def senderTagSrc : String := "json: \"sender,omitempty\""

/-- The `Recipient` field's tag (line 39). -/
def recipientTagSrc : String := "json:\"recipient,omitempty\""

/-- The `Content` field's tag (line 40). -/
def contentTagSrc : String := "json:\"content,omitempty\""

/-- Field spec `encoding/json` computes for `Sender`. -/
def senderSpec : FieldSpec := jsonFieldSpec "Sender" senderTagSrc

/-- Field spec `encoding/json` computes for `Recipient`. -/
def recipientSpec : FieldSpec := jsonFieldSpec "Recipient" recipientTagSrc

/-- Field spec `encoding/json` computes for `Content`. -/
def contentSpec : FieldSpec := jsonFieldSpec "Content" contentTagSrc

/-- Lower-case hex digit, as `encoding/json` emits in escapes. -/
def hexDigit (n : Nat) : Char :=
  if n < 10 then Char.ofNat (48 + n) else Char.ofNat (87 + n)

/-- `encoding/json` string escaping (HTML escaping on, as under plain
`json.Marshal`): quote, backslash, newline, carriage return, tab, the
HTML-sensitive characters and remaining control characters. -/
def escapeChar (c : Char) : List Char :=
  if c = '"' then ['\\', '"']
  else if c = '\\' then ['\\', '\\']
  else if c = '\n' then ['\\', 'n']
  else if c = '\r' then ['\\', 'r']
  else if c = '\t' then ['\\', 't']
  else if c = '<' || c = '>' || c = '&' || c.toNat < 32 then
    ['\\', 'u', '0', '0', hexDigit (c.toNat / 16), hexDigit (c.toNat % 16)]
  else [c]

/-- Escape every character of a string body. -/
def escapeList : List Char → List Char
  | [] => []
  | c :: rest => escapeChar c ++ escapeList rest

/-- A JSON string literal: quoted, escaped. -/
def jsonQuote (s : String) : String :=
  String.mk ('"' :: (escapeList s.data ++ ['"']))

/-- Emit one field of the marshalled object, honouring omitempty for the
empty string exactly as `encoding/json` does for Go string fields. -/
def emitField (fs : FieldSpec) (value : String) : List String :=
  if fs.omitEmpty && value = "" then []
  else [jsonQuote fs.key ++ ":" ++ jsonQuote value]

/-- Join the emitted fields with commas. -/
def joinComma : List String → String
  | [] => ""
  | [s] => s
  | s :: rest => s ++ "," ++ joinComma rest

/-- `json.Marshal` on a `Message` value (used at lines 59, 69 and 111):
fields in declaration order, each rendered per its derived `FieldSpec`. -/
def marshalMessage (m : Message) : String :=
  "\x7b" ++
    joinComma (emitField senderSpec m.Sender ++
      emitField recipientSpec m.Recipient ++
      emitField contentSpec m.Content) ++ "\x7d"

/-- The join notice marshalled on line 59. -/
def joinedNotice : String :=
  marshalMessage { Sender := "", Recipient := "", Content := "/A new socket has connected" }

/-- The leave notice marshalled on line 69. -/
def leftNotice : String :=
  marshalMessage { Sender := "", Recipient := "", Content := "/A socket has disconnected" }

/-! ## Clients and the hub state (ClientManager, lines 18-23 and 44-49) -/

/-- One `Client` (lines 28-32).  `ptr` models the Go pointer identity by
which `map[*Client]bool` keys and `conn != ignore` compare clients; `id`
is the uuid string; `sendCap` the capacity of the `send` channel.  The
channel's dynamic state lives in `HubState` plus the readiness oracle. -/
structure Client where
  ptr : Nat
  id : String
  sendCap : Nat
deriving DecidableEq, Repr

/-- Client construction on line 145: fresh identity, and
`make(chan []byte)` -- an unbuffered channel, capacity 0. -/
def newClient (ptr : Nat) (id : String) : Client :=
  { ptr := ptr, id := id, sendCap := 0 }

/-- The hub-owned state: `clients` is the live set `map[*Client]bool`
(keys listed in insertion order; the bool value is always `true`),
`closed` records every `close(conn.send)` the hub has executed (a client
listed twice was closed twice -- in Go that panics), and `deliveries`
logs each message successfully handed to a client's send channel, as
`(ptr, payload)` pairs in delivery order. -/
structure HubState where
  clients : List Client
  closed : List Client
  deliveries : List (Nat × String)
deriving DecidableEq, Repr

/-- Membership of a pointer in the live set. -/
def HubState.mem (st : HubState) (p : Nat) : Bool :=
  st.clients.any (fun c => c.ptr == p)

/-- Whether the hub has closed the send channel of pointer `p`. -/
def HubState.closedPtr (st : HubState) (p : Nat) : Bool :=
  st.closed.any (fun c => c.ptr == p)

/-- The manager's initial state (lines 44-49): no clients. -/
def initState : HubState :=
  { clients := [], closed := [], deliveries := [] }

/-- `ClientManager.send` (lines 90-96): loop over the live set and do a
*blocking* channel send `conn.send <- message` to every client other
than `ignore` (pointer comparison).  Every non-excluded client
eventually receives the message (first component); the second component
lists the recipients whose unbuffered channel had no ready receiver at
delivery time -- the loop blocks (waits) on each of these rather than
evicting or closing anything. -/
def ClientManager.send (rdy : Nat → Bool) (st : HubState) (message : String)
    (ignore : Client) : HubState × List Client :=
  let targets := st.clients.filter (fun c => !(c.ptr == ignore.ptr))
  ({ st with deliveries := st.deliveries ++ targets.map (fun c => (c.ptr, message)) },
   targets.filter (fun c => !rdy c.ptr))

/-- Line 58, `mn.clients[conn] = true`: map insert, a no-op on the live
set when the key is already present. -/
def registerClient (st : HubState) (conn : Client) : HubState :=
  if st.mem conn.ptr then st
  else { st with clients := st.clients ++ [conn] }

/-- The `register` arm of `ClientManager.start` (lines 57-60): insert,
then announce the join notice to everyone but the new connection. -/
def processRegister (rdy : Nat → Bool) (st : HubState) (conn : Client) :
    HubState × List Client :=
  ClientManager.send rdy (registerClient st conn) joinedNotice conn

/-- The `unregister` arm (lines 65-71): if the connection is a key of
the live map, close its send channel, delete it, and announce the leave
notice to the remaining clients (the exclusion of `conn` is then
vacuous); otherwise do nothing at all. -/
def processUnregister (rdy : Nat → Bool) (st : HubState) (conn : Client) :
    HubState × List Client :=
  if st.mem conn.ptr then
    ClientManager.send rdy
      { st with clients := st.clients.filter (fun c => !(c.ptr == conn.ptr)),
                closed := st.closed ++ [conn] }
      leftNotice conn
  else (st, [])

/-- The delivery loop of the `broadcast` arm (lines 77-84), one client
at a time: a non-blocking send (`select` with `default`) succeeds iff
the client's write pump is ready; otherwise the hub closes that client's
channel and deletes it from the map.  Returns (survivors, newly closed,
deliveries made). -/
def broadcastScan (rdy : Nat → Bool) (message : String) :
    List Client → List Client × List Client × List (Nat × String)
  | [] => ([], [], [])
  | conn :: rest =>
    let r := broadcastScan rdy message rest
    if rdy conn.ptr then (conn :: r.1, r.2.1, (conn.ptr, message) :: r.2.2)
    else (r.1, conn :: r.2.1, r.2.2)

/-- The `broadcast` arm of `ClientManager.start` (lines 76-84). -/
def processBroadcast (rdy : Nat → Bool) (st : HubState) (message : String) :
    HubState :=
  let r := broadcastScan rdy message st.clients
  { st with clients := r.1,
            closed := st.closed ++ r.2.1,
            deliveries := st.deliveries ++ r.2.2 }

/-- The three event kinds `ClientManager.start` selects over. -/
inductive HubEvent where
  | register (conn : Client)
  | unregister (conn : Client)
  | broadcast (message : String)
deriving DecidableEq, Repr

/-- One iteration of the `for`/`select` loop of `ClientManager.start`
(lines 51-88), on the event just received. -/
def processEvent (rdy : Nat → Bool) (st : HubState) : HubEvent → HubState
  | .register conn => (processRegister rdy st conn).1
  | .unregister conn => (processUnregister rdy st conn).1
  | .broadcast message => processBroadcast rdy st message

/-- The control loop run over a finite event sequence, in arrival order. -/
def processEvents (rdy : Nat → Bool) (st : HubState) (evs : List HubEvent) :
    HubState :=
  evs.foldl (processEvent rdy) st

/-- Whether an event is a register or unregister (no broadcast). -/
def HubEvent.isRegUnreg : HubEvent → Bool
  | .register _ => true
  | .unregister _ => true
  | .broadcast _ => false

/-- Modelled from the spec, one event: registering pointer `p` makes it
a member, unregistering it removes it, anything else leaves membership
alone. -/
def ruStep (p : Nat) (b : Bool) : HubEvent → Bool
  | .register c => b || (c.ptr == p)
  | .unregister c => b && !(c.ptr == p)
  | .broadcast _ => b

/-- Modelled from the spec: pointer `p` was registered and not
subsequently unregistered by the event sequence, read left to right. -/
def registeredNotUnregistered (evs : List HubEvent) (p : Nat) : Bool :=
  evs.foldl (ruStep p) false

/-! ## The per-connection pumps (Client.read and Client.write) -/

/-- An observable action of the inbound pump. -/
inductive PumpAction where
  | unregisterSelf
  | closeSocket
  | broadcast (payload : String)
deriving DecidableEq, Repr

/-- The payload of a broadcast action, if any. -/
def PumpAction.payloadOf : PumpAction → Option String
  | .broadcast p => some p
  | _ => none

/-- `Client.read` (lines 98-114) on a finite run: each successful socket
read is marshalled as `Message{Sender: cli.id, Content: string(message)}`
and handed to the hub as a broadcast event; the loop only ends on a read
error, whose branch (lines 107-109) sends an unregister and closes the
socket before `break` -- after which the deferred function (lines
99-102) sends a second unregister and closes the socket again. -/
def Client.read (cli : Client) (reads : List String) : List PumpAction :=
  (reads.map (fun m =>
    PumpAction.broadcast
      (marshalMessage { Sender := cli.id, Recipient := "", Content := m })))
    ++ [PumpAction.unregisterSelf, PumpAction.closeSocket]
    ++ [PumpAction.unregisterSelf, PumpAction.closeSocket]

/-- An observable action of the outbound pump. -/
inductive WriteAction where
  | writeText (message : String)
  | writeClose
  | logError
  | closeSocket
  | unregisterSelf
deriving DecidableEq, Repr

/-- The `for message := range cli.send` loop (lines 121-127): `queue` is
the sequence of messages the channel yields before closing, and
`failAt = some i` means the socket write of message `i` fails.  A failed
write is still an attempted write; it is followed by the log and
`break`. -/
def writeLoop : Option Nat → List String → List WriteAction
  | _, [] => []
  | fa, m :: rest =>
    if fa = some 0 then [WriteAction.writeText m, WriteAction.logError]
    else WriteAction.writeText m :: writeLoop (fa.map (· - 1)) rest

/-- `Client.write` (lines 116-130): run the drain loop, then -- on both
the clean-closure exit and the write-error `break` -- execute the
unconditional `WriteMessage(websocket.CloseMessage, ...)` on line 128,
and finally the deferred `cli.socket.Close()` (lines 117-119). -/
def Client.write (queue : List String) (failAt : Option Nat) : List WriteAction :=
  writeLoop failAt queue ++ [WriteAction.writeClose, WriteAction.closeSocket]

/-! ## Reachable hub states

`wsPage` (lines 132-150) is the only sender of register events, and it
always registers a brand-new `&Client` with a freshly made channel, so a
register event never carries a pointer whose channel the hub has already
closed.  `Reachable` captures exactly the states the control loop can be
driven to under that entry-point guarantee. -/

inductive Reachable (rdy : Nat → Bool) : HubState → Prop
  | init : Reachable rdy initState
  | register (st : HubState) (conn : Client) :
      Reachable rdy st → st.closedPtr conn.ptr = false →
      Reachable rdy (processRegister rdy st conn).1
  | unregister (st : HubState) (conn : Client) :
      Reachable rdy st → Reachable rdy (processUnregister rdy st conn).1
  | broadcast (st : HubState) (message : String) :
      Reachable rdy st → Reachable rdy (processBroadcast rdy st message)

/-! ## Concrete scenario material -/

/-- First connection of the three-client scenario. -/
def clientA : Client := newClient 0 "idA"

/-- Second connection of the three-client scenario. -/
def clientB : Client := newClient 1 "idB"

/-- Third connection of the three-client scenario. -/
def clientC : Client := newClient 2 "idC"

/-- The payload `clientA`'s read pump produces for the text "hi"
(line 111). -/
def hiPayload : String :=
  marshalMessage { Sender := clientA.id, Recipient := "", Content := "hi" }

/-- The scenario run: A, B, C register in order (all write pumps ready
throughout), then A's "hi" arrives as a broadcast event. -/
def run1 : HubState :=
  processEvents (fun _ => true) initState
    [HubEvent.register clientA, HubEvent.register clientB,
     HubEvent.register clientC, HubEvent.broadcast hiPayload]

/-- A one-client state whose single member is `clientA`. -/
def oneClientSt : HubState :=
  { clients := [clientA], closed := [], deliveries := [] }

/-! ## Shared lemmas about the hub operations -/

lemma any_congr_on {α : Type} (l : List α) (f g : α → Bool)
    (h : ∀ a ∈ l, f a = g a) : l.any f = l.any g := by
  induction l with
  | nil => rfl
  | cons a t ih =>
    simp only [List.any_cons, h a (by simp),
      ih (fun b hb => h b (by simp [hb]))]

lemma send_clients (rdy : Nat → Bool) (st : HubState) (message : String)
    (ignore : Client) :
    (ClientManager.send rdy st message ignore).1.clients = st.clients := rfl

lemma send_closed (rdy : Nat → Bool) (st : HubState) (message : String)
    (ignore : Client) :
    (ClientManager.send rdy st message ignore).1.closed = st.closed := rfl

lemma registerClient_closed (st : HubState) (conn : Client) :
    (registerClient st conn).closed = st.closed := by
  unfold registerClient
  split <;> rfl

lemma mem_registerClient (st : HubState) (conn : Client) (p : Nat) :
    (registerClient st conn).mem p = (st.mem p || (conn.ptr == p)) := by
  unfold registerClient
  cases hm : st.mem conn.ptr with
  | true =>
    simp only [hm, if_true]
    by_cases hp : conn.ptr = p
    · subst hp
      simp [hm]
    · simp [hp]
  | false =>
    simp [hm, HubState.mem, List.any_append]

lemma mem_processRegister (rdy : Nat → Bool) (st : HubState) (conn : Client)
    (p : Nat) :
    (processRegister rdy st conn).1.mem p = (st.mem p || (conn.ptr == p)) := by
  have h : (processRegister rdy st conn).1.mem p = (registerClient st conn).mem p := rfl
  rw [h, mem_registerClient]

lemma mem_processUnregister (rdy : Nat → Bool) (st : HubState) (conn : Client)
    (p : Nat) :
    (processUnregister rdy st conn).1.mem p = (st.mem p && !(conn.ptr == p)) := by
  cases hm : st.mem conn.ptr with
  | true =>
    have hcl : (processUnregister rdy st conn).1.clients
        = st.clients.filter (fun c => !(c.ptr == conn.ptr)) := by
      simp [processUnregister, ClientManager.send, hm]
    unfold HubState.mem
    rw [hcl, List.any_filter]
    by_cases hp : conn.ptr = p
    · subst hp
      have hall : st.clients.any (fun a => !(a.ptr == conn.ptr) && (a.ptr == conn.ptr)) = false := by
        rw [List.any_eq_false]
        intro d _
        cases hd : d.ptr == conn.ptr <;> simp [hd]
      simp [hall]
    · have hcong : st.clients.any (fun a => !(a.ptr == conn.ptr) && (a.ptr == p))
          = st.clients.any (fun a => a.ptr == p) := by
        apply any_congr_on
        intro d _
        by_cases hdp : d.ptr = p
        · have hne : ¬ p = conn.ptr := fun hx => hp hx.symm
          simp [hdp, hne]
        · simp [hdp]
      rw [hcong]
      simp [hp]
  | false =>
    have h : (processUnregister rdy st conn).1 = st := by
      simp [processUnregister, hm]
    rw [h]
    by_cases hp : conn.ptr = p
    · subst hp
      simp [hm]
    · simp [hp]

lemma broadcastScan_eq (rdy : Nat → Bool) (message : String) (l : List Client) :
    broadcastScan rdy message l
      = (l.filter (fun c => rdy c.ptr), l.filter (fun c => !rdy c.ptr),
         (l.filter (fun c => rdy c.ptr)).map (fun c => (c.ptr, message))) := by
  induction l with
  | nil => rfl
  | cons conn rest ih =>
    cases h : rdy conn.ptr <;> simp [broadcastScan, ih, List.filter_cons, h]

lemma processBroadcast_clients (rdy : Nat → Bool) (st : HubState) (message : String) :
    (processBroadcast rdy st message).clients
      = st.clients.filter (fun c => rdy c.ptr) := by
  simp [processBroadcast, broadcastScan_eq]

lemma processBroadcast_closed (rdy : Nat → Bool) (st : HubState) (message : String) :
    (processBroadcast rdy st message).closed
      = st.closed ++ st.clients.filter (fun c => !rdy c.ptr) := by
  simp [processBroadcast, broadcastScan_eq]

lemma processBroadcast_deliveries (rdy : Nat → Bool) (st : HubState) (message : String) :
    (processBroadcast rdy st message).deliveries
      = st.deliveries
          ++ (st.clients.filter (fun c => rdy c.ptr)).map (fun c => (c.ptr, message)) := by
  simp [processBroadcast, broadcastScan_eq]

lemma mem_processBroadcast_of_not_ready (rdy : Nat → Bool) (st : HubState)
    (message : String) (p : Nat) (hrdy : rdy p = false) :
    (processBroadcast rdy st message).mem p = false := by
  rw [HubState.mem, processBroadcast_clients, List.any_filter, List.any_eq_false]
  intro d _
  by_cases hdp : d.ptr = p
  · simp [hdp, hrdy]
  · simp [hdp]

lemma writeLoop_no_unregister (q : List String) :
    ∀ fa : Option Nat, WriteAction.unregisterSelf ∉ writeLoop fa q := by
  induction q with
  | nil => intro fa; simp [writeLoop]
  | cons m rest ih =>
    intro fa
    by_cases h : fa = some 0
    · simp [writeLoop, h]
    · simp only [writeLoop, if_neg h, List.mem_cons]
      rintro (hx | hx)
      · cases hx
      · exact ih (fa.map (· - 1)) hx

lemma writeLoop_fail (queue : List String) :
    ∀ i : Nat, i < queue.length →
      writeLoop (some i) queue
        = (queue.take (i + 1)).map WriteAction.writeText ++ [WriteAction.logError] := by
  induction queue with
  | nil => intro i h; cases h
  | cons m rest ih =>
    intro i h
    cases i with
    | zero => simp [writeLoop]
    | succ n =>
      have hn : n < rest.length := by
        simpa using Nat.lt_of_succ_lt_succ h
      have hne : (some (n + 1) : Option Nat) ≠ some 0 := by
        simp
      simp [writeLoop, hne, ih n hn, List.take_succ_cons]

/-! ## The claims -/

/-- C6 (code_bug): the claim says the serialized envelope omits the
sender field for system notices.  The `Sender` struct tag on line 38 is
`json: "sender,omitempty"` -- the space between the colon and the
opening quote makes `reflect.StructTag` lookup fail, so `encoding/json`
falls back to the Go field name with no options: both system notices
serialize with a `"Sender":""` member, never omitting it.  (With the
space removed the tag would yield key `sender` with omitempty, which is
plainly what was intended.)  Relayed messages do carry the originating
identity in the sender field, as claimed. -/
theorem notice_sender_not_omitted :
    tagLookup senderTagSrc "json" = none
    ∧ senderSpec = { key := "Sender", omitEmpty := false }
    ∧ jsonFieldSpec "Sender" "json:\"sender,omitempty\""
        = { key := "sender", omitEmpty := true }
    ∧ joinedNotice = "\x7b\"Sender\":\"\",\"content\":\"/A new socket has connected\"\x7d"
    ∧ leftNotice = "\x7b\"Sender\":\"\",\"content\":\"/A socket has disconnected\"\x7d"
    ∧ marshalMessage { Sender := "client-1", Recipient := "", Content := "hi" }
        = "\x7b\"Sender\":\"client-1\",\"content\":\"hi\"\x7d" :=
  ⟨by decide, by decide, by decide, by decide, by decide, by decide⟩

/-- C4 (code_bug): the claim says a read error triggers exactly one
Unregister(self).  In `Client.read` the error branch (lines 107-109)
sends an unregister and closes the socket, and then the deferred
cleanup (lines 99-102) sends a second unregister and closes the socket
again -- so every read failure puts two unregister events on the hub's
channel, whether or not any message was read first. -/
theorem read_error_double_unregister :
    (Client.read (newClient 0 "A") []).count PumpAction.unregisterSelf = 2
    ∧ (Client.read (newClient 0 "A") []).count PumpAction.closeSocket = 2
    ∧ (Client.read (newClient 0 "A") ["hi"]).count PumpAction.unregisterSelf = 2 :=
  ⟨by decide, by decide, by decide⟩

/-- C9 (confirmed): `wsPage` constructs every client with
`make(chan []byte)` -- an unbuffered channel, capacity 0 -- so in the
broadcast delivery loop such a client receives the message exactly when
its write pump is ready at that instant, and is otherwise treated as
having a full queue and evicted. -/
theorem unbuffered_queue (ptr : Nat) (id message : String) (rdy : Nat → Bool) :
    (newClient ptr id).sendCap = 0
    ∧ broadcastScan rdy message [newClient ptr id]
        = (if rdy ptr then ([newClient ptr id], [], [(ptr, message)])
           else ([], [newClient ptr id], [])) := by
  refine ⟨rfl, ?_⟩
  cases h : rdy ptr <;> simp [broadcastScan, newClient, h]

/-- C10 (confirmed): every broadcast payload the read pump hands to the
hub is the JSON serialization of a `Message` whose Sender is the
client's identity, whose Content is the raw bytes read, and whose
Recipient is empty; the inbound bytes are never parsed, so a recipient
field inside them only ever appears verbatim inside `content`. -/
theorem read_pump_payloads (ptr : Nat) (id : String) (reads : List String) :
    (Client.read (newClient ptr id) reads).filterMap PumpAction.payloadOf
      = reads.map (fun m =>
          marshalMessage { Sender := id, Recipient := "", Content := m }) := by
  induction reads with
  | nil => rfl
  | cons m rest ih =>
    simpa [Client.read, List.filterMap_cons, PumpAction.payloadOf, newClient]
      using ih

/-- C1 (corrected, counterexample): in the three-client scenario with
every write pump ready, the claim's requirement that the hub deliver
A's envelope to B and C but nothing to A fails: the broadcast arm
(lines 77-84) loops over the whole live set, sender included, so A's
own queue receives the envelope as well. -/
theorem relay_echo_cex :
    ¬ (run1.deliveries.count (1, hiPayload) = 1
       ∧ run1.deliveries.count (2, hiPayload) = 1
       ∧ run1.deliveries.count (0, hiPayload) = 0) := by
  decide

/-- C1 (amended): after A, B, C register in order and A's "hi" is
broadcast (all pumps ready), B and C each receive the envelope
`{sender: A, content: "hi"}` exactly once -- and A also receives it
exactly once, because the relay path excludes no one. -/
theorem relay_delivery_counts :
    run1.deliveries.count (1, hiPayload) = 1
    ∧ run1.deliveries.count (2, hiPayload) = 1
    ∧ run1.deliveries.count (0, hiPayload) = 1 :=
  ⟨by decide, by decide, by decide⟩

/-- C7 (corrected, counterexample): with a two-message queue whose very
first socket write fails, the outbound pump logs and stops draining --
but the trace then still contains the unconditional close-control write
of line 128 (one write action after the failure), so "no further writes
to that socket (including control messages)" is false. -/
theorem write_error_still_writes_cex :
    Client.write ["a", "b"] (some 0)
      = [WriteAction.writeText "a", WriteAction.logError,
         WriteAction.writeClose, WriteAction.closeSocket]
    ∧ ((Client.write ["a", "b"] (some 0)).drop 2).count WriteAction.writeClose = 1 :=
  ⟨by decide, by decide⟩

/-- C7 (amended): after the socket write of message `i` fails, the
outbound pump writes no further queued message, never sends an
Unregister event (on any run), and exits after logging -- but on its way
out it still attempts the single unconditional close-control write of
line 128 before the deferred socket close. -/
theorem write_error_behavior (queue : List String) (i : Nat) (q : List String)
    (fa : Option Nat) (h : i < queue.length) :
    Client.write queue (some i)
      = (queue.take (i + 1)).map WriteAction.writeText
          ++ [WriteAction.logError, WriteAction.writeClose, WriteAction.closeSocket]
    ∧ WriteAction.unregisterSelf ∉ Client.write q fa := by
  constructor
  · unfold Client.write
    rw [writeLoop_fail queue i h]
    simp
  · unfold Client.write
    intro hx
    rcases List.mem_append.mp hx with hx | hx
    · exact writeLoop_no_unregister q fa hx
    · simp at hx

/-- Witness for `write_error_behavior` at a concrete queue and failure
index. -/
theorem write_error_behavior_wit :
    Client.write ["a", "b"] (some 0)
      = ((["a", "b"] : List String).take (0 + 1)).map WriteAction.writeText
          ++ [WriteAction.logError, WriteAction.writeClose, WriteAction.closeSocket]
    ∧ WriteAction.unregisterSelf ∉ Client.write ["x"] none :=
  write_error_behavior ["a", "b"] 0 ["x"] none (by decide)

/-- C2 (corrected, counterexample): while `clientA`'s unbuffered queue
has no ready receiver, a register of `clientB` runs the announce path
`ClientManager.send` (lines 90-96), whose per-recipient send is the
blocking `conn.send <- message`: the hub waits on `clientA` (second
component) while `clientA` stays in the live set with an open queue --
it is not closed and not removed, contradicting the claim that every
per-recipient delivery, announce path included, evicts on full. -/
theorem announce_blocks_cex :
    (processRegister (fun _ => false) oneClientSt clientB).1.mem 0 = true
    ∧ (processRegister (fun _ => false) oneClientSt clientB).1.closedPtr 0 = false
    ∧ (processRegister (fun _ => false) oneClientSt clientB).2 = [clientA] :=
  ⟨by decide, by decide, by decide⟩

/-- C2 (amended): only the relay path is non-blocking: a broadcast
event removes a full recipient from the live set and closes its queue
immediately.  The announce path never closes or removes anyone; a full
non-excluded recipient is instead a client the delivery loop blocks on
(it appears in the waited-on list returned by `ClientManager.send`). -/
theorem delivery_blocking_split (rdy : Nat → Bool) (st : HubState)
    (message : String) (c ign : Client) (hc : c ∈ st.clients)
    (hrdy : rdy c.ptr = false) (hign : (c.ptr == ign.ptr) = false) :
    (processBroadcast rdy st message).mem c.ptr = false
    ∧ (processBroadcast rdy st message).closedPtr c.ptr = true
    ∧ (ClientManager.send rdy st message ign).1.clients = st.clients
    ∧ (ClientManager.send rdy st message ign).1.closed = st.closed
    ∧ c ∈ (ClientManager.send rdy st message ign).2 := by
  refine ⟨mem_processBroadcast_of_not_ready rdy st message c.ptr hrdy, ?_, rfl, rfl, ?_⟩
  · rw [HubState.closedPtr, processBroadcast_closed, List.any_append]
    have hx : (st.clients.filter (fun d => !rdy d.ptr)).any (fun d => d.ptr == c.ptr) = true := by
      rw [List.any_eq_true]
      exact ⟨c, List.mem_filter.mpr ⟨hc, by simp [hrdy]⟩, by simp⟩
    simp [hx]
  · unfold ClientManager.send
    refine List.mem_filter.mpr ⟨List.mem_filter.mpr ⟨hc, ?_⟩, ?_⟩
    · simp [hign]
    · simp [hrdy]

/-- Witness for `delivery_blocking_split` at a concrete saturated
client. -/
theorem delivery_blocking_split_wit :
    (processBroadcast (fun _ => false) oneClientSt "m").mem clientA.ptr = false
    ∧ (processBroadcast (fun _ => false) oneClientSt "m").closedPtr clientA.ptr = true
    ∧ (ClientManager.send (fun _ => false) oneClientSt "m" clientB).1.clients
        = oneClientSt.clients
    ∧ (ClientManager.send (fun _ => false) oneClientSt "m" clientB).1.closed
        = oneClientSt.closed
    ∧ clientA ∈ (ClientManager.send (fun _ => false) oneClientSt "m" clientB).2 :=
  delivery_blocking_split (fun _ => false) oneClientSt "m" clientA clientB
    (by decide) rfl (by decide)

lemma mem_processEvents_ru (rdy : Nat → Bool) (p : Nat) :
    ∀ (evs : List HubEvent) (st : HubState),
      (∀ e ∈ evs, e.isRegUnreg = true) →
      (processEvents rdy st evs).mem p = evs.foldl (ruStep p) (st.mem p) := by
  intro evs
  induction evs with
  | nil => intro st _; rfl
  | cons e evs ih =>
    intro st h
    have he : e.isRegUnreg = true := h e (List.mem_cons_self e evs)
    have ht : ∀ x ∈ evs, x.isRegUnreg = true :=
      fun x hx => h x (List.mem_cons_of_mem e hx)
    have h1 : processEvents rdy st (e :: evs)
        = processEvents rdy (processEvent rdy st e) evs := rfl
    have h2 : (e :: evs).foldl (ruStep p) (st.mem p)
        = evs.foldl (ruStep p) (ruStep p (st.mem p) e) := rfl
    rw [h1, h2, ih (processEvent rdy st e) ht]
    congr 1
    cases e with
    | register c => exact mem_processRegister rdy st c p
    | unregister c => exact mem_processUnregister rdy st c p
    | broadcast m => simp [HubEvent.isRegUnreg] at he

/-- C3 (confirmed): over any finite sequence of register/unregister
events the control loop's live set ends up exactly at the
registered-but-not-subsequently-unregistered set; a duplicate register
(the connection is already a live-map key) changes neither the live set
nor any queue's open/closed state, and an unregister of an absent
connection is a complete no-op -- in particular neither case ever
closes a queue, so an already-closed queue is never closed again. -/
theorem liveSet_matches_events (rdy : Nat → Bool) (evs : List HubEvent) (p : Nat)
    (st1 st2 : HubState) (cdup cabs : Client)
    (hru : ∀ e ∈ evs, e.isRegUnreg = true)
    (hdup : st1.mem cdup.ptr = true)
    (habs : st2.mem cabs.ptr = false) :
    (processEvents rdy initState evs).mem p = registeredNotUnregistered evs p
    ∧ (processRegister rdy st1 cdup).1.clients = st1.clients
    ∧ (processRegister rdy st1 cdup).1.closed = st1.closed
    ∧ processUnregister rdy st2 cabs = (st2, []) := by
  refine ⟨?_, ?_, ?_, ?_⟩
  · rw [mem_processEvents_ru rdy p evs initState hru]
    rfl
  · have h : (processRegister rdy st1 cdup).1.clients
        = (registerClient st1 cdup).clients := rfl
    rw [h]
    simp [registerClient, hdup]
  · exact registerClient_closed st1 cdup
  · simp [processUnregister, habs]

/-- Witness for `liveSet_matches_events` on a concrete event sequence
with a duplicate unregister. -/
theorem liveSet_matches_events_wit :
    (processEvents (fun _ => true) initState
        [HubEvent.register clientA, HubEvent.unregister clientA,
         HubEvent.unregister clientA, HubEvent.register clientB]).mem 0
      = registeredNotUnregistered
          [HubEvent.register clientA, HubEvent.unregister clientA,
           HubEvent.unregister clientA, HubEvent.register clientB] 0
    ∧ (processRegister (fun _ => true) oneClientSt clientA).1.clients
        = oneClientSt.clients
    ∧ (processRegister (fun _ => true) oneClientSt clientA).1.closed
        = oneClientSt.closed
    ∧ processUnregister (fun _ => true) initState clientB = (initState, []) :=
  liveSet_matches_events (fun _ => true)
    [HubEvent.register clientA, HubEvent.unregister clientA,
     HubEvent.unregister clientA, HubEvent.register clientB] 0
    oneClientSt initState clientA clientB (by decide) (by decide) (by decide)

/-- C5 (confirmed): if pointer `p` is a live client (exactly one map
entry, queue not yet closed) whose queue is saturated when a broadcast
event is processed, then by the end of that event `p` is out of the
live set, its queue has been closed exactly once, and the only
deliveries made by the loop are of the broadcast payload itself to the
ready clients -- no disconnect-announcement is issued from inside the
delivery loop. -/
theorem broadcast_evicts_saturated (rdy : Nat → Bool) (st : HubState)
    (message : String) (p : Nat) (hrdy : rdy p = false)
    (hcl : st.closed.countP (fun d => d.ptr == p) = 0)
    (hmem : st.clients.countP (fun d => d.ptr == p) = 1) :
    (processBroadcast rdy st message).mem p = false
    ∧ (processBroadcast rdy st message).closed.countP (fun d => d.ptr == p) = 1
    ∧ (processBroadcast rdy st message).deliveries
        = st.deliveries
            ++ (st.clients.filter (fun d => rdy d.ptr)).map
                (fun d => (d.ptr, message)) := by
  refine ⟨mem_processBroadcast_of_not_ready rdy st message p hrdy, ?_,
    processBroadcast_deliveries rdy st message⟩
  rw [processBroadcast_closed, List.countP_append, hcl, List.countP_filter]
  have hcong : st.clients.countP (fun a => (a.ptr == p) && !rdy a.ptr)
      = st.clients.countP (fun a => a.ptr == p) := by
    apply List.countP_congr
    intro d _
    by_cases hdp : d.ptr = p
    · simp [hdp, hrdy]
    · simp [hdp]
  rw [hcong, hmem]

/-- Witness for `broadcast_evicts_saturated` on a one-client state
whose only member is saturated. -/
theorem broadcast_evicts_saturated_wit :
    (processBroadcast (fun _ => false) oneClientSt "m").mem 0 = false
    ∧ (processBroadcast (fun _ => false) oneClientSt "m").closed.countP
        (fun d => d.ptr == 0) = 1
    ∧ (processBroadcast (fun _ => false) oneClientSt "m").deliveries
        = oneClientSt.deliveries
            ++ (oneClientSt.clients.filter (fun d => (fun _ => false) d.ptr)).map
                (fun d => (d.ptr, "m")) :=
  broadcast_evicts_saturated (fun _ => false) oneClientSt "m" 0 rfl
    (by decide) (by decide)

lemma processRegister_closedPtr (rdy : Nat → Bool) (st : HubState)
    (conn : Client) (p : Nat) :
    (processRegister rdy st conn).1.closedPtr p = st.closedPtr p := by
  have h : (processRegister rdy st conn).1.closed = st.closed := by
    have h1 : (processRegister rdy st conn).1.closed
        = (registerClient st conn).closed := rfl
    rw [h1, registerClient_closed]
  unfold HubState.closedPtr
  rw [h]

lemma reach_open (rdy : Nat → Bool) (st : HubState) (h : Reachable rdy st) :
    ∀ p : Nat, st.mem p = true → st.closedPtr p = false := by
  induction h with
  | init =>
    intro p hp
    simp [initState, HubState.mem] at hp
  | register st1 conn hst hfresh ih =>
    intro p hp
    rw [mem_processRegister] at hp
    rw [processRegister_closedPtr]
    cases (Bool.or_eq_true _ _).mp hp with
    | inl h1 => exact ih p h1
    | inr h2 =>
      have hpe : conn.ptr = p := by simpa using h2
      exact hpe ▸ hfresh
  | unregister st1 conn hst ih =>
    intro p hp
    rw [mem_processUnregister] at hp
    have h1 : st1.mem p = true := ((Bool.and_eq_true _ _).mp hp).1
    have hne : ¬ conn.ptr = p := by
      simpa using ((Bool.and_eq_true _ _).mp hp).2
    cases hm : st1.mem conn.ptr with
    | false =>
      have hst_eq : (processUnregister rdy st1 conn).1 = st1 := by
        simp [processUnregister, hm]
      rw [hst_eq]
      exact ih p h1
    | true =>
      have hcls : (processUnregister rdy st1 conn).1.closed
          = st1.closed ++ [conn] := by
        simp [processUnregister, ClientManager.send, hm]
      have hl := ih p h1
      unfold HubState.closedPtr at hl ⊢
      rw [hcls, List.any_append, hl]
      simp [hne]
  | broadcast st1 message hst ih =>
    intro p hp
    unfold HubState.mem at hp
    rw [processBroadcast_clients, List.any_filter] at hp
    obtain ⟨d, hd, hdp⟩ := List.any_eq_true.mp hp
    have hd1 : rdy d.ptr = true := ((Bool.and_eq_true _ _).mp hdp).1
    have hd2 : d.ptr = p := by simpa using ((Bool.and_eq_true _ _).mp hdp).2
    have hrdyp : rdy p = true := hd2 ▸ hd1
    have hmem : st1.mem p = true := by
      unfold HubState.mem
      rw [List.any_eq_true]
      exact ⟨d, hd, by simp [hd2]⟩
    have h1 := ih p hmem
    unfold HubState.closedPtr at h1 ⊢
    rw [processBroadcast_closed, List.any_append, h1, List.any_filter]
    rw [Bool.false_or, List.any_eq_false]
    intro a _
    by_cases hap : a.ptr = p
    · simp [hap, hrdyp]
    · simp [hap]

/-- C8 (confirmed): in every state the control loop can reach (register
events carry fresh connections whose channel has never been closed, as
`wsPage` guarantees), a connection the hub tracks -- one that is a live
map key or whose queue the hub has closed -- is in the live set iff its
outbound queue is still open.  Each handler updates membership and
closure together within its single event, so no reachable state has a
member with a closed queue or an evicted member with an open one. -/
theorem live_iff_open (rdy : Nat → Bool) (st : HubState) (p : Nat)
    (h : Reachable rdy st) (htrack : (st.mem p || st.closedPtr p) = true) :
    (st.mem p = true ↔ st.closedPtr p = false) := by
  cases hm : st.mem p with
  | true => simp [hm, reach_open rdy st h p hm]
  | false =>
    have hcl : st.closedPtr p = true := by
      cases hc : st.closedPtr p with
      | true => rfl
      | false => rw [hm, hc] at htrack; cases htrack
    simp [hm, hcl]

/-- Witness for `live_iff_open` on the reachable state left by a
register followed by an unregister of the same connection. -/
theorem live_iff_open_wit :
    ((processUnregister (fun _ => true)
        (processRegister (fun _ => true) initState clientA).1 clientA).1.mem 0 = true
      ↔ (processUnregister (fun _ => true)
          (processRegister (fun _ => true) initState clientA).1 clientA).1.closedPtr 0
            = false) :=
  live_iff_open (fun _ => true)
    (processUnregister (fun _ => true)
      (processRegister (fun _ => true) initState clientA).1 clientA).1 0
    (Reachable.unregister (processRegister (fun _ => true) initState clientA).1
      clientA
      (Reachable.register initState clientA Reachable.init (by decide)))
    (by decide)

end RTChat
